import Mathlib

/-
  Verification development for the offline-content caching subsystem
  (`OfflineManager` in the repository's offline utilities module).

  The manager is embedded shallowly: its mutable fields become a
  `ManagerState` record, every asynchronous collaborator outcome
  (IndexedDB transaction results, the platform storage estimate, the
  external data source, the preference store write) is supplied by an
  explicit per-call environment record, and each public method becomes a
  pure function from state and environment to state and result.  A
  method body's `try`/`catch` structure is mirrored by an
  `Except Unit` value for the body together with an explicit handler.
-/

namespace AbcRacing

/-- JSON-serializable values, the payloads handled by the manager.
Numbers are modelled as integers (the payloads the manager handles are
structured records whose numeric leaves are integral; nothing in the
manager depends on fractional values). -/
inductive Json where
  | null : Json
  | bool : Bool → Json
  | num : Int → Json
  | str : String → Json
  | arr : List Json → Json
  | obj : List (String × Json) → Json

/-- JavaScript truthiness of a JSON value: `null`, `false`, `0` and the
empty string are falsy; every array and object is truthy. -/
def Json.truthy : Json → Bool
  | .null => false
  | .bool b => b
  | .num n => n != 0
  | .str s => s != ""
  | .arr _ => true
  | .obj _ => true

mutual
/-- Length of `JSON.stringify(v)`, used by the manager for the `size`
metadata field and the storage-quota projection (string escapes are not
modelled; only that the length is a fixed function of the value matters
to the manager). -/
def Json.jsonLen : Json → Nat
  | .null => 4
  | .bool b => if b then 4 else 5
  | .num n => (toString n).length
  | .str s => s.length + 2
  | .arr xs => Json.arrLen xs + 2
  | .obj fs => Json.objLen fs + 2

/-- Length of the comma-separated stringification of an array's elements. -/
def Json.arrLen : List Json → Nat
  | [] => 0
  | [x] => Json.jsonLen x
  | x :: y :: xs => Json.jsonLen x + 1 + Json.arrLen (y :: xs)

/-- Length of the comma-separated stringification of an object's fields. -/
def Json.objLen : List (String × Json) → Nat
  | [] => 0
  | [(k, v)] => k.length + 3 + Json.jsonLen v
  | (k, v) :: f :: fs => k.length + 3 + Json.jsonLen v + 1 + Json.objLen (f :: fs)
end

/-- One entry of the in-memory content registry (`OfflineContent` in the
source): display metadata plus the cached-size / last-updated /
availability bookkeeping.  Timestamps are milliseconds as natural
numbers. -/
structure OfflineContent where
  id : String
  ctype : String
  title : String
  description : String
  size : Nat
  lastUpdated : Nat
  isAvailable : Bool
deriving DecidableEq, Repr

/-- The per-content-type enable flags inside the preferences object. -/
structure ContentTypeFlags where
  drivers : Bool
  news : Bool
  dashboard : Bool
  bookmarks : Bool
deriving DecidableEq, Repr

/-- `OfflinePreferences` from the source. -/
structure OfflinePreferences where
  enableOfflineMode : Bool
  autoSync : Bool
  syncInterval : Nat
  maxStorageSize : Nat
  contentTypes : ContentTypeFlags
deriving DecidableEq, Repr

/-- The hard-coded default preferences the manager is constructed with. -/
def defaultPreferences : OfflinePreferences :=
  { enableOfflineMode := true
    autoSync := true
    syncInterval := 30
    maxStorageSize := 50
    contentTypes := { drivers := true, news := true, dashboard := true, bookmarks := true } }

/-- A partial preferences object (`Partial<OfflinePreferences>`): each
top-level field optionally present.  The merge is shallow, so
`contentTypes`, when present, replaces the whole flags object. -/
structure PrefsPatch where
  enableOfflineMode : Option Bool := none
  autoSync : Option Bool := none
  syncInterval : Option Nat := none
  maxStorageSize : Option Nat := none
  contentTypes : Option ContentTypeFlags := none
deriving DecidableEq, Repr

/-- The spread merge `{ ...prefs, ...patch }`: shallow, field by field. -/
def mergePrefs (p : OfflinePreferences) (q : PrefsPatch) : OfflinePreferences :=
  { enableOfflineMode := q.enableOfflineMode.getD p.enableOfflineMode
    autoSync := q.autoSync.getD p.autoSync
    syncInterval := q.syncInterval.getD p.syncInterval
    maxStorageSize := q.maxStorageSize.getD p.maxStorageSize
    contentTypes := q.contentTypes.getD p.contentTypes }

/-- A patch carrying every field of `p`, as produced by serializing the
full preferences object into the preference store. -/
def fullPatch (p : OfflinePreferences) : PrefsPatch :=
  { enableOfflineMode := some p.enableOfflineMode
    autoSync := some p.autoSync
    syncInterval := some p.syncInterval
    maxStorageSize := some p.maxStorageSize
    contentTypes := some p.contentTypes }

/-- One record of the IndexedDB `content` store (`{ type, data, timestamp }`),
keyed by `ctype`. -/
structure CachedPayload where
  ctype : String
  data : Json
  timestamp : Nat

/-- The whole mutable state of the `OfflineManager` together with the
stores it owns: `swRegistered` is whether `this.serviceWorker` is
non-null, `db` is the IndexedDB `content` object store (a partial map
keyed by content type), `swCache` is the worker-side cache mirrored by
the fire-and-forget messages, and `prefStore` is the localStorage
preference blob — `none` when absent, `some none` when present but
unparsable, `some (some q)` when it parses to the patch `q`. -/
structure ManagerState where
  swRegistered : Bool
  isOnline : Bool
  offlineContent : List (String × OfflineContent)
  preferences : OfflinePreferences
  db : String → Option CachedPayload
  swCache : String → Option Json
  prefStore : Option (Option PrefsPatch)

/-- Lookup by key in an association list (`Map.get`). -/
def lookupA {α : Type} (l : List (String × α)) (t : String) : Option α :=
  match l with
  | [] => none
  | p :: l => if t = p.1 then some p.2 else lookupA l t

/-- Update every registry entry whose key is `k` in place (the source
mutates the `OfflineContent` object found in the map; keys are
untouched). -/
def updateA (l : List (String × OfflineContent)) (k : String)
    (f : OfflineContent → OfflineContent) : List (String × OfflineContent) :=
  l.map fun p => if p.1 = k then (p.1, f p.2) else p

/-- `match body with | ok v => ok v | error _ => ok handler`: the shape of
every `try { ... } catch { log; return fallback }` block in the manager. -/
def tryCatch {α : Type} (body : Except Unit α) (handler : α) : Except Unit α :=
  match body with
  | .ok v => .ok v
  | .error _ => .ok handler

/-- Outcome of `navigator.storage.estimate()`: the facility may be
absent from the platform, may reject, or may resolve with usage and
quota figures (`estimate.usage || 0` coercion applied by the callers). -/
inductive EstimateResult where
  | unavailable : EstimateResult
  | err : EstimateResult
  | ok (usage quota : Nat) : EstimateResult

/-- `checkStorageQuota(data)`: with a usable estimate, permit the write
iff current usage plus the serialized payload length stays within
`maxStorageSize` megabytes; with the facility absent or failing, permit
the write (fail-open). -/
def checkStorageQuota (prefs : OfflinePreferences) (est : EstimateResult) (data : Json) : Bool :=
  match est with
  | .ok usage _ => decide (usage + data.jsonLen ≤ prefs.maxStorageSize * 1024 * 1024)
  | _ => true

/-- `getStorageUsage()`: `{ used, total }` from the estimate, `{0,0}`
when the facility is absent or fails. -/
def getStorageUsage (est : EstimateResult) : Nat × Nat :=
  match est with
  | .ok usage quota => (usage, quota)
  | _ => (0, 0)

/-- `getFromIndexedDB` success value: `getRequest.result?.data || null` —
the stored `data` field when a record exists and its value is truthy,
JavaScript `null` otherwise. -/
def dbGetData (s : ManagerState) (ty : String) : Json :=
  match s.db ty with
  | some p => if p.data.truthy then p.data else Json.null
  | none => Json.null

/-- `getFromServiceWorkerCache`: with a registered worker, resolve the
reply-channel response (the worker's cached entry or `null`); with no
worker, resolve `null`. -/
def getFromSWCache (s : ManagerState) (ty : String) : Json :=
  if s.swRegistered then (s.swCache ty).getD Json.null else Json.null

/-- Environment of one `getCachedContent` call: whether the IndexedDB
open-and-get succeeds (when it does, the value read is determined by the
store contents). -/
structure RetrieveEnv where
  getOk : Bool

/-- Body of `getCachedContent` (the code inside its `try`): read
IndexedDB; if that read rejects the error escapes to the handler; if it
yields a truthy value return it; otherwise fall back to the
service-worker cache. -/
def getCachedContentBody (s : ManagerState) (env : RetrieveEnv) (ty : String) :
    Except Unit Json :=
  if env.getOk then
    let d := dbGetData s ty
    if d.truthy then .ok d else .ok (getFromSWCache s ty)
  else .error ()

/-- `getCachedContent(type)`: the body above with the method's `catch`
resolving `null`. -/
def getCachedContent (s : ManagerState) (env : RetrieveEnv) (ty : String) :
    Except Unit Json :=
  tryCatch (getCachedContentBody s env ty) Json.null

/-- `isContentAvailableOffline(type)`: registry lookup, `false` for
unknown types. -/
def isContentAvailableOffline (s : ManagerState) (ty : String) : Bool :=
  match lookupA s.offlineContent ty with
  | some c => c.isAvailable
  | none => false

/-- Environment of one `cacheContent` call: the storage estimate
outcome, whether the IndexedDB put commits, and the current time used
for the record timestamp and the registry `lastUpdated`. -/
structure CacheEnv where
  est : EstimateResult
  putOk : Bool
  now : Nat

/-- The state after the success path of `cacheContent`: the record
written to the store, the registry entry's size / lastUpdated /
availability refreshed, and the write mirrored to the worker cache
(with no registered worker the mirror message is a silent no-op). -/
def cacheSuccState (s : ManagerState) (env : CacheEnv) (ty : String) (data : Json)
    (content : OfflineContent) : ManagerState :=
  { s with
    db := fun t => if t = ty then some ⟨ty, data, env.now⟩ else s.db t
    offlineContent := updateA s.offlineContent ty
      (fun _ => { content with size := data.jsonLen, lastUpdated := env.now,
                               isAvailable := true })
    swCache := if s.swRegistered
      then (fun t => if t = ty then some data else s.swCache t)
      else s.swCache }

/-- Body of `cacheContent` (inside its `try`): unknown types throw; a
failing quota guard throws; a rejected put throws (the aborted
transaction leaves the store unchanged); otherwise the success path. -/
def cacheContentBody (s : ManagerState) (env : CacheEnv) (ty : String) (data : Json) :
    Except Unit (ManagerState × Bool) :=
  match lookupA s.offlineContent ty with
  | none => .error ()
  | some content =>
    if !checkStorageQuota s.preferences env.est data then .error ()
    else if !env.putOk then .error ()
    else .ok (cacheSuccState s env ty data content, true)

/-- `cacheContent(type, data)`: returns `false` outright when offline
mode is disabled; otherwise runs the body with the method's `catch`
returning `false` (state untouched, since every throw precedes the
mutations). -/
def cacheContent (s : ManagerState) (env : CacheEnv) (ty : String) (data : Json) :
    Except Unit (ManagerState × Bool) :=
  if !s.preferences.enableOfflineMode then .ok (s, false)
  else tryCatch (cacheContentBody s env ty data) (s, false)

/-- Environment of one `removeCachedContent` call: whether the IndexedDB
delete commits. -/
structure RemoveEnv where
  deleteOk : Bool

/-- The state after the success path of `removeCachedContent`: the
record deleted, the removal mirrored to the worker cache, and a known
type's registry entry marked size 0 / unavailable (an unknown type skips
the metadata update and still succeeds). -/
def removeSuccState (s : ManagerState) (ty : String) : ManagerState :=
  { s with
    db := fun t => if t = ty then none else s.db t
    swCache := if s.swRegistered
      then (fun t => if t = ty then none else s.swCache t)
      else s.swCache
    offlineContent := updateA s.offlineContent ty
      (fun c => { c with size := 0, isAvailable := false }) }

/-- Body of `removeCachedContent`: a rejected delete throws; otherwise
the success path. -/
def removeCachedContentBody (s : ManagerState) (env : RemoveEnv) (ty : String) :
    Except Unit (ManagerState × Bool) :=
  if !env.deleteOk then .error ()
  else .ok (removeSuccState s ty, true)

/-- `removeCachedContent(type)`: the body with the method's `catch`
returning `false`. -/
def removeCachedContent (s : ManagerState) (env : RemoveEnv) (ty : String) :
    Except Unit (ManagerState × Bool) :=
  tryCatch (removeCachedContentBody s env ty) (s, false)

/-- Environment of one `clearAllCachedContent` call: whether the
IndexedDB clear commits. -/
structure ClearEnv where
  clearOk : Bool

/-- The state after the success path of `clearAllCachedContent`: the
store emptied, the worker cache cleared, every registry entry marked
size 0 / unavailable. -/
def clearSuccState (s : ManagerState) : ManagerState :=
  { s with
    db := fun _ => none
    swCache := if s.swRegistered then (fun _ => none) else s.swCache
    offlineContent :=
      s.offlineContent.map fun p => (p.1, { p.2 with size := 0, isAvailable := false }) }

/-- Body of `clearAllCachedContent`: a rejected clear throws; otherwise
the success path. -/
def clearAllCachedContentBody (s : ManagerState) (env : ClearEnv) :
    Except Unit (ManagerState × Bool) :=
  if !env.clearOk then .error ()
  else .ok (clearSuccState s, true)

/-- `clearAllCachedContent()`: the body with the method's `catch`
returning `false`. -/
def clearAllCachedContent (s : ManagerState) (env : ClearEnv) :
    Except Unit (ManagerState × Bool) :=
  tryCatch (clearAllCachedContentBody s env) (s, false)

/-- Environment of one `resetIndexedDB` call: whether
`indexedDB.deleteDatabase` succeeds. -/
structure ResetEnv where
  deleteDbOk : Bool

/-- `resetIndexedDB()`: deletes the whole database; a failing delete
request rejects, and the method's own `catch` rethrows, so the error
propagates to the caller. -/
def resetIndexedDB (s : ManagerState) (env : ResetEnv) : Except Unit ManagerState :=
  if env.deleteDbOk then .ok { s with db := fun _ => none } else .error ()

/-- Environment of one `savePreferences` call: whether the localStorage
write succeeds (a failing write is logged and the store left as it
was). -/
structure SaveEnv where
  setOk : Bool

/-- `savePreferences()`: serialize the current preferences into the
store; failure is swallowed. -/
def savePreferences (s : ManagerState) (env : SaveEnv) : ManagerState :=
  if env.setOk then { s with prefStore := some (some (fullPatch s.preferences)) } else s

/-- `updatePreferences(partial)`: shallow-merge the patch into the
current preferences, then persist. -/
def updatePreferences (s : ManagerState) (env : SaveEnv) (q : PrefsPatch) : ManagerState :=
  savePreferences { s with preferences := mergePrefs s.preferences q } env

/-- `loadPreferences()`: merge whatever parses from the stored blob over
the current preferences; an absent or unparsable blob leaves them
unchanged (parse failure is caught). -/
def loadPreferences (s : ManagerState) : ManagerState :=
  match s.prefStore with
  | some (some q) => { s with preferences := mergePrefs s.preferences q }
  | _ => s

/-- Environment of one `syncOfflineData` call: the current time, the
per-type outcome of the external data source (`fetchFreshData` — a
rejection models a failed fetch), and the per-type environment of the
re-caching `cacheContent` call. -/
structure SyncEnv where
  now : Nat
  fetch : String → Except Unit Json
  cacheEnv : String → CacheEnv

/-- `checkForUpdates(type)`: a known type is due for refresh when more
than `syncInterval` minutes (in milliseconds) have elapsed since its
`lastUpdated`; unknown types are never due. -/
def checkForUpdates (s : ManagerState) (now : Nat) (ty : String) : Bool :=
  match lookupA s.offlineContent ty with
  | none => false
  | some c => decide (now - c.lastUpdated > s.preferences.syncInterval * 60 * 1000)

/-- `updateCachedContent(type)`: fetch fresh data; a failed fetch is
caught and logged (no state change); a falsy result is skipped;
otherwise the fresh data is re-cached via `cacheContent`. -/
def updateCachedContent (s : ManagerState) (env : SyncEnv) (ty : String) : ManagerState :=
  match env.fetch ty with
  | .error _ => s
  | .ok d =>
    if d.truthy then
      match cacheContent s (env.cacheEnv ty) ty d with
      | .ok (s', _) => s'
      | .error _ => s
    else s

/-- One iteration of the `syncOfflineData` loop over a snapshot of the
registry keys: an available, due type has `updateCachedContent` run (its
fetch recorded in the trace); others are skipped. -/
def syncStep (env : SyncEnv) (acc : ManagerState × List String) (ty : String) :
    ManagerState × List String :=
  match lookupA acc.1.offlineContent ty with
  | some c =>
    if c.isAvailable then
      if checkForUpdates acc.1 env.now ty then
        (updateCachedContent acc.1 env ty, acc.2 ++ [ty])
      else acc
    else acc
  | none => acc

/-- `syncOfflineData()`: a no-op returning at once when offline or when
`autoSync` is off; otherwise the loop above over the registry's keys.
The second component is the trace of types for which the external data
source was invoked. -/
def syncOfflineData (s : ManagerState) (env : SyncEnv) : ManagerState × List String :=
  if !s.isOnline || !s.preferences.autoSync then (s, [])
  else (s.offlineContent.map (·.1)).foldl (syncStep env) (s, [])

/-- The four content types registered at initialization. -/
def contentTypeKeys : List String := ["drivers", "news", "dashboard", "bookmarks"]

/-- A default registry descriptor: size 0, unavailable, `lastUpdated`
the current time. -/
def mkDescriptor (key ttl desc : String) (now : Nat) : OfflineContent :=
  { id := key, ctype := key, title := ttl, description := desc,
    size := 0, lastUpdated := now, isAvailable := false }

/-- The default registry entries created by `initializeOfflineContent`:
all four types, size 0, unavailable, `lastUpdated` the current time. -/
def defaultRegistry (now : Nat) : List (String × OfflineContent) :=
  [("drivers",
    mkDescriptor "drivers" "F1 Drivers" "Complete driver profiles and statistics" now),
   ("news",
    mkDescriptor "news" "F1 News" "Latest Formula 1 news and updates" now),
   ("dashboard",
    mkDescriptor "dashboard" "Dashboard" "F1 statistics and quick stats" now),
   ("bookmarks",
    mkDescriptor "bookmarks" "Bookmarks" "Your saved drivers, news, and races" now)]

/-- Insert-or-overwrite one registry entry (`Map.set`). -/
def setA (l : List (String × OfflineContent)) (k : String) (v : OfflineContent) :
    List (String × OfflineContent) :=
  if l.any (fun p => p.1 = k) then l.map (fun p => if p.1 = k then (k, v) else p)
  else l ++ [(k, v)]

/-- Environment of one hydration attempt (`loadOfflineData`): `fatal`
models the whole pass rejecting — the failure mode the method's outer
catch re-throws to trigger the database reset (e.g. the iteration
machinery failing before any per-type read) — while `getOk` gives each
per-type IndexedDB read outcome, whose failures are caught per type and
hydration continues. -/
structure HydrationEnv where
  fatal : Bool
  getOk : String → Bool

/-- One per-type step of `loadOfflineData`: a successful read of a
truthy stored value marks the type available and records its serialized
size; a failed or empty read leaves the entry untouched. -/
def hydrateOne (henv : HydrationEnv) (s : ManagerState) (ty : String) : ManagerState :=
  if henv.getOk ty then
    let d := dbGetData s ty
    if d.truthy then
      let reg' := updateA s.offlineContent ty
        (fun c => { c with isAvailable := true, size := d.jsonLen })
      { s with offlineContent := reg' }
    else s
  else s

/-- `loadOfflineData()`: iterate the four types, catching per-type
failures; a fatal pass rejects (and the outer catch re-throws). -/
def loadOfflineData (s : ManagerState) (henv : HydrationEnv) : Except Unit ManagerState :=
  if henv.fatal then .error ()
  else .ok (contentTypeKeys.foldl (hydrateOne henv) s)

/-- `initializeOfflineContent()`: set the four default descriptors into
the registry, then hydrate from the database.  The returned flag records
whether hydration threw; the mutations made before the throw (the
default descriptors) persist either way. -/
def initializeOfflineContent (s : ManagerState) (henv : HydrationEnv) (now : Nat) :
    ManagerState × Bool :=
  let s0 := { s with offlineContent :=
    (defaultRegistry now).foldl (fun acc kv => setA acc kv.1 kv.2) s.offlineContent }
  match loadOfflineData s0 henv with
  | .ok s1 => (s1, false)
  | .error _ => (s0, true)

/-- Environment of one `initialize` call: the service-worker
registration outcome, the two possible hydration attempts, the
`resetIndexedDB` outcome between them, and the current time. -/
structure InitEnv where
  swRegOk : Bool
  hyd1 : HydrationEnv
  resetOk : Bool
  hyd2 : HydrationEnv
  now : Nat

/-- Result of `initialize`: the final state plus instrumentation — how
many times `resetIndexedDB` was invoked and how many hydration attempts
were made. -/
structure InitResult where
  state : ManagerState
  resets : Nat
  attempts : Nat

/-- `initialize()`: register the worker (failure caught internally),
load preferences, set up network listeners, then attempt hydration; on a
hydration throw, reset the database and retry once; any remaining error
(the reset itself or the retry failing) is swallowed by the outer catch,
so the method always resolves. -/
def initializeManager (s : ManagerState) (env : InitEnv) : InitResult :=
  let s1 := { s with swRegistered := env.swRegOk }
  let s2 := loadPreferences s1
  let r1 := initializeOfflineContent s2 env.hyd1 env.now
  if !r1.2 then ⟨r1.1, 0, 1⟩
  else
    match resetIndexedDB r1.1 ⟨env.resetOk⟩ with
    | .ok s4 =>
      let r2 := initializeOfflineContent s4 env.hyd2 env.now
      ⟨r2.1, 1, 2⟩
    | .error _ => ⟨r1.1, 1, 1⟩

/-- A fresh manager right after construction with an empty registry and
empty stores: worker registered, online, default preferences. -/
def freshState : ManagerState :=
  { swRegistered := true
    isOnline := true
    offlineContent := []
    preferences := defaultPreferences
    db := fun _ => none
    swCache := fun _ => none
    prefStore := none }

/-- A manager as it stands after a clean first initialization on empty
stores: the four default descriptors, nothing cached. -/
def readyState : ManagerState :=
  { freshState with offlineContent := defaultRegistry 0 }

/-- A fresh manager with no registered worker (`this.serviceWorker`
null): every bridge operation degrades to a no-op / `null`. -/
def noWorkerState : ManagerState :=
  { readyState with swRegistered := false }

/-- The state component of a `cacheContent`/`removeCachedContent`/
`clearAllCachedContent` outcome (the resolved promise never carries an
error, but the extractor keeps the original state if it did). -/
def resultState (s : ManagerState) (r : Except Unit (ManagerState × Bool)) : ManagerState :=
  match r with
  | .ok (s', _) => s'
  | .error _ => s

/-- The boolean component of a manager-operation outcome. -/
def resultBool (r : Except Unit (ManagerState × Bool)) : Bool :=
  match r with
  | .ok (_, b) => b
  | .error _ => false

/-- The consistency invariant between registry and database: a type the
registry marks available has a stored payload. -/
def registryDbInvariant (s : ManagerState) : Prop :=
  ∀ ty c, lookupA s.offlineContent ty = some c → c.isAvailable = true →
    (s.db ty).isSome = true

/-- A type the sync loop refreshes: currently marked available and due
per the timestamp check. -/
def syncDue (s : ManagerState) (now : Nat) (ty : String) : Bool :=
  isContentAvailableOffline s ty && checkForUpdates s now ty

/-- A ready manager whose worker-side cache holds an entry for `news`
while the database holds nothing. -/
def c1State : ManagerState :=
  { readyState with swCache := fun t => if t = "news" then some (Json.str "cached") else none }

/-- A ready manager that has successfully cached a `news` payload at
time 0. -/
def syncedState : ManagerState :=
  resultState readyState
    (cacheContent readyState ⟨.unavailable, true, 0⟩ "news" (Json.str "x"))

section AssocLemmas

theorem lookupA_updateA (l : List (String × OfflineContent)) (k t : String)
    (f : OfflineContent → OfflineContent) :
    lookupA (updateA l k f) t =
      if t = k then (lookupA l t).map f else lookupA l t := by
  induction l with
  | nil => simp [updateA, lookupA]
  | cons p l ih =>
    obtain ⟨a, b⟩ := p
    simp only [updateA, List.map_cons] at ih ⊢
    by_cases hak : a = k
    · subst hak
      by_cases hta : t = a
      · subst hta
        simp [lookupA]
      · simp [lookupA, hta, ih]
    · by_cases hta : t = a
      · subst hta
        have hk : t ≠ k := hak
        simp [lookupA, hak, hk]
      · simp [lookupA, hak, hta, ih]

theorem keys_updateA (l : List (String × OfflineContent)) (k : String)
    (f : OfflineContent → OfflineContent) :
    (updateA l k f).map (·.1) = l.map (·.1) := by
  induction l with
  | nil => rfl
  | cons p l ih =>
    simp only [updateA, List.map_cons] at ih ⊢
    by_cases h : p.1 = k
    · simp [h, ih]
    · simp [h, ih]

theorem lookupA_mapSnd (l : List (String × OfflineContent)) (t : String)
    (g : OfflineContent → OfflineContent) :
    lookupA (l.map fun p => (p.1, g p.2)) t = (lookupA l t).map g := by
  induction l with
  | nil => rfl
  | cons p l ih =>
    by_cases h : t = p.1
    · simp [lookupA, h]
    · simp [lookupA, h, ih]

end AssocLemmas

section OperationLemmas

theorem tryCatch_ok {α : Type} (body : Except Unit α) (handler : α) :
    ∃ v, tryCatch body handler = .ok v := by
  cases body with
  | ok v => exact ⟨v, rfl⟩
  | error e => exact ⟨handler, rfl⟩

/-- Every `cacheContent` call either fails leaving the state untouched
or succeeds producing exactly the success-path state. -/
theorem cacheContent_cases (s : ManagerState) (env : CacheEnv) (ty : String) (data : Json) :
    cacheContent s env ty data = .ok (s, false) ∨
    ∃ content, lookupA s.offlineContent ty = some content ∧
      s.preferences.enableOfflineMode = true ∧
      checkStorageQuota s.preferences env.est data = true ∧
      env.putOk = true ∧
      cacheContent s env ty data = .ok (cacheSuccState s env ty data content, true) := by
  by_cases hmode : s.preferences.enableOfflineMode
  · cases hlk : lookupA s.offlineContent ty with
    | none =>
      left
      simp [cacheContent, cacheContentBody, hmode, hlk, tryCatch]
    | some content =>
      by_cases hq : checkStorageQuota s.preferences env.est data
      · cases hput : env.putOk with
        | false =>
          left
          simp [cacheContent, cacheContentBody, hmode, hlk, hq, hput, tryCatch]
        | true =>
          right
          refine ⟨content, rfl, hmode, hq, rfl, ?_⟩
          simp [cacheContent, cacheContentBody, hmode, hlk, hq, hput, tryCatch]
      · left
        simp [cacheContent, cacheContentBody, hmode, hlk, hq, tryCatch]
  · left
    simp [cacheContent, hmode]

/-- Inversion of a `cacheContent` call that resolved `true`. -/
theorem cacheContent_ok_true (s s' : ManagerState) (env : CacheEnv) (ty : String)
    (data : Json) (h : cacheContent s env ty data = .ok (s', true)) :
    ∃ content, lookupA s.offlineContent ty = some content ∧
      s' = cacheSuccState s env ty data content := by
  rcases cacheContent_cases s env ty data with hc | ⟨content, hlk, _, _, _, hc⟩
  · rw [hc] at h
    cases h
  · rw [hc] at h
    injection h with h
    injection h with h1 h2
    exact ⟨content, hlk, h1.symm⟩

/-- A failing delete makes `removeCachedContent` resolve `false` with
the state untouched. -/
theorem removeCachedContent_of_fail (s : ManagerState) (env : RemoveEnv) (ty : String)
    (h : env.deleteOk = false) :
    removeCachedContent s env ty = .ok (s, false) := by
  simp [removeCachedContent, removeCachedContentBody, h, tryCatch]

/-- A committing delete makes `removeCachedContent` resolve `true` with
exactly the success-path state. -/
theorem removeCachedContent_of_ok (s : ManagerState) (env : RemoveEnv) (ty : String)
    (h : env.deleteOk = true) :
    removeCachedContent s env ty = .ok (removeSuccState s ty, true) := by
  simp [removeCachedContent, removeCachedContentBody, h, tryCatch]

/-- A failing clear makes `clearAllCachedContent` resolve `false` with
the state untouched. -/
theorem clearAllCachedContent_of_fail (s : ManagerState) (env : ClearEnv)
    (h : env.clearOk = false) :
    clearAllCachedContent s env = .ok (s, false) := by
  simp [clearAllCachedContent, clearAllCachedContentBody, h, tryCatch]

/-- A committing clear makes `clearAllCachedContent` resolve `true` with
exactly the success-path state. -/
theorem clearAllCachedContent_of_ok (s : ManagerState) (env : ClearEnv)
    (h : env.clearOk = true) :
    clearAllCachedContent s env = .ok (clearSuccState s, true) := by
  simp [clearAllCachedContent, clearAllCachedContentBody, h, tryCatch]

/-- The success-path state of `cacheContent` keeps the preferences, the
network flag, the registry keys, and every other type's registry
entry. -/
theorem cacheSuccState_frame (s : ManagerState) (env : CacheEnv) (ty : String)
    (data : Json) (content : OfflineContent) :
    (cacheSuccState s env ty data content).preferences = s.preferences ∧
    (cacheSuccState s env ty data content).isOnline = s.isOnline ∧
    (cacheSuccState s env ty data content).offlineContent.map (·.1) =
      s.offlineContent.map (·.1) ∧
    ∀ t, t ≠ ty →
      lookupA (cacheSuccState s env ty data content).offlineContent t =
        lookupA s.offlineContent t := by
  refine ⟨rfl, rfl, ?_, ?_⟩
  · simp only [cacheSuccState]
    exact keys_updateA _ _ _
  · intro t ht
    simp only [cacheSuccState]
    rw [lookupA_updateA]
    simp [ht]

/-- Both outcomes of `cacheContent` preserve the registry/database
consistency invariant. -/
theorem cacheContent_preserves_invariant (s s' : ManagerState) (env : CacheEnv)
    (ty : String) (data : Json) (b : Bool)
    (hinv : registryDbInvariant s)
    (h : cacheContent s env ty data = .ok (s', b)) :
    registryDbInvariant s' := by
  rcases cacheContent_cases s env ty data with hc | ⟨content, hlk, _, _, _, hc⟩
  · rw [hc] at h
    injection h with h
    injection h with h1 _
    exact h1 ▸ hinv
  · rw [hc] at h
    injection h with h
    injection h with h1 _
    subst h1
    intro t c hlt hav
    simp only [cacheSuccState] at hlt ⊢
    rw [lookupA_updateA] at hlt
    by_cases hty : t = ty
    · subst hty
      simp
    · simp only [hty, if_false] at hlt
      have := hinv t c hlt hav
      simpa [hty] using this

theorem lookupA_mem {α : Type} (l : List (String × α)) (t : String) (c : α)
    (h : lookupA l t = some c) : (t, c) ∈ l := by
  induction l with
  | nil => simp [lookupA] at h
  | cons p l ih =>
    simp only [lookupA] at h
    split at h
    · rename_i heq
      injection h with h
      subst h
      subst heq
      exact List.mem_cons_self _ _
    · exact List.mem_cons_of_mem _ (ih h)

theorem updateA_of_none (l : List (String × OfflineContent)) (k : String)
    (f : OfflineContent → OfflineContent) (h : lookupA l k = none) :
    updateA l k f = l := by
  induction l with
  | nil => rfl
  | cons p l ih =>
    simp only [lookupA] at h
    split at h
    · cases h
    · rename_i hne
      have hpk : p.1 ≠ k := fun hh => hne hh.symm
      simp only [updateA, List.map_cons] at ih ⊢
      rw [if_neg hpk, ih h]

theorem keys_mapSnd (l : List (String × OfflineContent))
    (g : OfflineContent → OfflineContent) :
    ((l.map fun p => (p.1, g p.2)).map (·.1)) = l.map (·.1) := by
  induction l with
  | nil => rfl
  | cons p l ih => simp [ih]

/-- Every registry entry created at initialization is unavailable. -/
theorem defaultRegistry_unavailable (now : Nat) (ty : String) (c : OfflineContent)
    (h : lookupA (defaultRegistry now) ty = some c) : c.isAvailable = false := by
  have hm := lookupA_mem _ _ _ h
  simp only [defaultRegistry, List.mem_cons, List.mem_singleton] at hm
  rcases hm with hm | hm | hm | hm | hm <;> first
    | (injection hm with _ hm; subst hm; rfl)
    | cases hm

/-- The registry keys created at initialization. -/
theorem defaultRegistry_keys (now : Nat) :
    (defaultRegistry now).map (·.1) = contentTypeKeys := rfl

/-- Setting the four default descriptors into a registry whose key set
is empty or already the four standard keys yields exactly the default
registry. -/
theorem setDefaults_of_keys (l : List (String × OfflineContent)) (now : Nat)
    (h : l = [] ∨ l.map (·.1) = contentTypeKeys) :
    (defaultRegistry now).foldl (fun acc kv => setA acc kv.1 kv.2) l =
      defaultRegistry now := by
  rcases h with h | h
  · subst h
    rfl
  · match l, h with
    | [(k1, v1), (k2, v2), (k3, v3), (k4, v4)], h =>
      simp only [List.map_cons, List.map_nil, contentTypeKeys, List.cons.injEq,
        and_true] at h
      obtain ⟨h1, h2, h3, h4⟩ := h
      subst h1; subst h2; subst h3; subst h4
      rfl

/-- `loadPreferences` only touches the preferences field. -/
theorem loadPreferences_frame (s : ManagerState) :
    (loadPreferences s).offlineContent = s.offlineContent ∧
    (loadPreferences s).db = s.db ∧
    (loadPreferences s).swCache = s.swCache ∧
    (loadPreferences s).swRegistered = s.swRegistered ∧
    (loadPreferences s).isOnline = s.isOnline := by
  rcases hps : s.prefStore with _ | (_ | q) <;>
    simp [loadPreferences, hps]

/-- One hydration step changes neither the database nor the preferences
nor the registry keys, and preserves the registry/database consistency
invariant (it marks a type available only after reading a truthy stored
value for it). -/
theorem hydrateOne_facts (henv : HydrationEnv) (s : ManagerState) (ty : String) :
    (hydrateOne henv s ty).db = s.db ∧
    (hydrateOne henv s ty).preferences = s.preferences ∧
    (hydrateOne henv s ty).offlineContent.map (·.1) = s.offlineContent.map (·.1) ∧
    (registryDbInvariant s → registryDbInvariant (hydrateOne henv s ty)) := by
  cases hok : henv.getOk ty with
  | false =>
    have he : hydrateOne henv s ty = s := by
      unfold hydrateOne
      rw [hok]
      rfl
    rw [he]
    exact ⟨rfl, rfl, rfl, fun h => h⟩
  | true =>
    cases htr : (dbGetData s ty).truthy with
    | false =>
      have he : hydrateOne henv s ty = s := by
        unfold hydrateOne
        rw [hok, if_pos rfl]
        simp [htr]
      rw [he]
      exact ⟨rfl, rfl, rfl, fun h => h⟩
    | true =>
      have he : hydrateOne henv s ty =
          { s with offlineContent :=
              updateA s.offlineContent ty (fun c =>
                { c with isAvailable := true, size := (dbGetData s ty).jsonLen }) } := by
        unfold hydrateOne
        rw [hok, if_pos rfl]
        simp [htr]
      rw [he]
      refine ⟨rfl, rfl, ?_, ?_⟩
      · exact keys_updateA s.offlineContent ty (fun c =>
          { c with isAvailable := true, size := (dbGetData s ty).jsonLen })
      intro hinv t c hlt hav
      rw [lookupA_updateA] at hlt
      by_cases hty : t = ty
      · subst hty
        cases hdb : s.db t with
        | none => rw [dbGetData, hdb] at htr; cases htr
        | some p => simp [hdb]
      · simp only [hty, if_false] at hlt
        exact hinv t c hlt hav

/-- The hydration loop changes neither the database nor the preferences
nor the registry keys, and preserves the invariant. -/
theorem hydrateFold_facts (henv : HydrationEnv) (ks : List String) (s : ManagerState) :
    (ks.foldl (hydrateOne henv) s).db = s.db ∧
    (ks.foldl (hydrateOne henv) s).preferences = s.preferences ∧
    (ks.foldl (hydrateOne henv) s).offlineContent.map (·.1) =
      s.offlineContent.map (·.1) ∧
    (registryDbInvariant s → registryDbInvariant (ks.foldl (hydrateOne henv) s)) := by
  induction ks generalizing s with
  | nil => exact ⟨rfl, rfl, rfl, fun h => h⟩
  | cons t ks ih =>
    obtain ⟨hdb, hpref, hkeys, hinv⟩ := hydrateOne_facts henv s t
    obtain ⟨ihdb, ihpref, ihkeys, ihinv⟩ := ih (hydrateOne henv s t)
    exact ⟨ihdb.trans hdb, ihpref.trans hpref, ihkeys.trans hkeys,
      fun h => ihinv (hinv h)⟩

/-- Facts about one `initializeOfflineContent` attempt on a registry
with the standard key set: the thrown flag equals the fatal flag of the
attempt's environment; the database and preferences are untouched; the
resulting registry has the standard keys, satisfies the invariant, and
is exactly the default (all-unavailable) registry when the attempt
threw. -/
theorem initializeOfflineContent_facts (s : ManagerState) (henv : HydrationEnv) (now : Nat)
    (hkeys : s.offlineContent = [] ∨ s.offlineContent.map (·.1) = contentTypeKeys) :
    (initializeOfflineContent s henv now).2 = henv.fatal ∧
    (initializeOfflineContent s henv now).1.db = s.db ∧
    (initializeOfflineContent s henv now).1.preferences = s.preferences ∧
    (initializeOfflineContent s henv now).1.offlineContent.map (·.1) = contentTypeKeys ∧
    registryDbInvariant (initializeOfflineContent s henv now).1 ∧
    (henv.fatal = true →
      (initializeOfflineContent s henv now).1.offlineContent = defaultRegistry now) := by
  have hset := setDefaults_of_keys s.offlineContent now hkeys
  have hdefinv : registryDbInvariant { s with offlineContent := defaultRegistry now } := by
    intro t c hlt hav
    have := defaultRegistry_unavailable now t c hlt
    rw [hav] at this
    cases this
  cases hf : henv.fatal with
  | true =>
    have he : initializeOfflineContent s henv now =
        ({ s with offlineContent := defaultRegistry now }, true) := by
      unfold initializeOfflineContent loadOfflineData
      rw [hset, hf]
      rfl
    rw [he]
    exact ⟨rfl, rfl, rfl, defaultRegistry_keys now, hdefinv, fun _ => rfl⟩
  | false =>
    have he : initializeOfflineContent s henv now =
        (contentTypeKeys.foldl (hydrateOne henv)
          { s with offlineContent := defaultRegistry now }, false) := by
      unfold initializeOfflineContent loadOfflineData
      rw [hset, hf]
      rfl
    rw [he]
    obtain ⟨hdb, hpref, hkeys', hinv⟩ :=
      hydrateFold_facts henv contentTypeKeys { s with offlineContent := defaultRegistry now }
    refine ⟨rfl, hdb, hpref, hkeys'.trans (defaultRegistry_keys now), hinv hdefinv,
      fun h => ?_⟩
    cases h

/-- `updateCachedContent` keeps the preferences, the network flag, the
registry keys and every other type's registry entry, and preserves the
invariant. -/
theorem updateCachedContent_facts (s : ManagerState) (env : SyncEnv) (ty : String) :
    (updateCachedContent s env ty).preferences = s.preferences ∧
    (updateCachedContent s env ty).isOnline = s.isOnline ∧
    (updateCachedContent s env ty).offlineContent.map (·.1) =
      s.offlineContent.map (·.1) ∧
    (∀ t, t ≠ ty → lookupA (updateCachedContent s env ty).offlineContent t =
      lookupA s.offlineContent t) ∧
    (registryDbInvariant s → registryDbInvariant (updateCachedContent s env ty)) := by
  cases hf : env.fetch ty with
  | error e =>
    have he : updateCachedContent s env ty = s := by
      unfold updateCachedContent
      rw [hf]
    rw [he]
    exact ⟨rfl, rfl, rfl, fun _ _ => rfl, fun h => h⟩
  | ok d =>
    cases htr : d.truthy with
    | false =>
      have he : updateCachedContent s env ty = s := by
        unfold updateCachedContent
        rw [hf]
        simp [htr]
      rw [he]
      exact ⟨rfl, rfl, rfl, fun _ _ => rfl, fun h => h⟩
    | true =>
      rcases cacheContent_cases s (env.cacheEnv ty) ty d with hc |
        ⟨content, hlk, _, _, _, hc⟩
      · have he : updateCachedContent s env ty = s := by
          unfold updateCachedContent
          rw [hf]
          simp [htr, hc]
        rw [he]
        exact ⟨rfl, rfl, rfl, fun _ _ => rfl, fun h => h⟩
      · have he : updateCachedContent s env ty =
            cacheSuccState s (env.cacheEnv ty) ty d content := by
          unfold updateCachedContent
          rw [hf]
          simp [htr, hc]
        rw [he]
        obtain ⟨hpref, honl, hkeys, hlook⟩ :=
          cacheSuccState_frame s (env.cacheEnv ty) ty d content
        exact ⟨hpref, honl, hkeys, hlook,
          fun h => cacheContent_preserves_invariant s _ (env.cacheEnv ty) ty d true h hc⟩

/-- One sync-loop step keeps the preferences, the network flag, the
registry keys and every registry entry other than the processed type,
and preserves the invariant. -/
theorem syncStep_facts (env : SyncEnv) (acc : ManagerState × List String) (ty : String) :
    (syncStep env acc ty).1.preferences = acc.1.preferences ∧
    (syncStep env acc ty).1.isOnline = acc.1.isOnline ∧
    (syncStep env acc ty).1.offlineContent.map (·.1) =
      acc.1.offlineContent.map (·.1) ∧
    (∀ t, t ≠ ty → lookupA (syncStep env acc ty).1.offlineContent t =
      lookupA acc.1.offlineContent t) ∧
    (registryDbInvariant acc.1 → registryDbInvariant (syncStep env acc ty).1) := by
  cases hlk : lookupA acc.1.offlineContent ty with
  | none =>
    have he : syncStep env acc ty = acc := by
      unfold syncStep
      rw [hlk]
    rw [he]
    exact ⟨rfl, rfl, rfl, fun _ _ => rfl, fun h => h⟩
  | some c =>
    cases hav : c.isAvailable with
    | false =>
      have he : syncStep env acc ty = acc := by
        unfold syncStep
        rw [hlk]
        simp [hav]
      rw [he]
      exact ⟨rfl, rfl, rfl, fun _ _ => rfl, fun h => h⟩
    | true =>
      cases hdue : checkForUpdates acc.1 env.now ty with
      | false =>
        have he : syncStep env acc ty = acc := by
          unfold syncStep
          rw [hlk]
          simp [hav, hdue]
        rw [he]
        exact ⟨rfl, rfl, rfl, fun _ _ => rfl, fun h => h⟩
      | true =>
        have he : syncStep env acc ty = (updateCachedContent acc.1 env ty, acc.2 ++ [ty]) := by
          unfold syncStep
          rw [hlk]
          simp [hav, hdue]
        rw [he]
        exact updateCachedContent_facts acc.1 env ty

theorem checkForUpdates_congr (s s0 : ManagerState) (now : Nat) (t : String)
    (hpref : s.preferences = s0.preferences)
    (hlk : lookupA s.offlineContent t = lookupA s0.offlineContent t) :
    checkForUpdates s now t = checkForUpdates s0 now t := by
  unfold checkForUpdates
  rw [hlk, hpref]

/-- The sync loop's fetch trace: starting from any state that agrees
with `s0` on preferences and on the registry entries of the keys still
to process, the processed keys are exactly those available and due in
`s0`. -/
theorem syncFold_trace (env : SyncEnv) (ks : List String) (s0 : ManagerState) :
    ∀ (s : ManagerState) (tr : List String),
    s.preferences = s0.preferences →
    (∀ t ∈ ks, lookupA s.offlineContent t = lookupA s0.offlineContent t) →
    ks.Nodup →
    (ks.foldl (syncStep env) (s, tr)).2 = tr ++ ks.filter (syncDue s0 env.now) := by
  induction ks with
  | nil => intro s tr _ _ _; simp
  | cons t ks ih =>
    intro s tr hpref hlk hnd
    obtain ⟨hnt, hnd'⟩ := List.nodup_cons.mp hnd
    have hlt : lookupA s.offlineContent t = lookupA s0.offlineContent t :=
      hlk t (by simp)
    simp only [List.foldl_cons, List.filter_cons]
    cases hl0 : lookupA s0.offlineContent t with
    | none =>
      have he : syncStep env (s, tr) t = (s, tr) := by
        unfold syncStep
        rw [show lookupA s.offlineContent t = none from hlt.trans hl0]
      have hdue : syncDue s0 env.now t = false := by
        simp [syncDue, isContentAvailableOffline, hl0]
      rw [he, hdue]
      simp only [Bool.false_eq_true, if_false]
      exact ih s tr hpref (fun u hu => hlk u (by simp [hu])) hnd'
    | some c =>
      cases hav : c.isAvailable with
      | false =>
        have he : syncStep env (s, tr) t = (s, tr) := by
          unfold syncStep
          rw [show lookupA s.offlineContent t = some c from hlt.trans hl0]
          simp [hav]
        have hdue : syncDue s0 env.now t = false := by
          simp [syncDue, isContentAvailableOffline, hl0, hav]
        rw [he, hdue]
        simp only [Bool.false_eq_true, if_false]
        exact ih s tr hpref (fun u hu => hlk u (by simp [hu])) hnd'
      | true =>
        have hcu := checkForUpdates_congr s s0 env.now t hpref hlt
        cases hdue0 : checkForUpdates s0 env.now t with
        | false =>
          have he : syncStep env (s, tr) t = (s, tr) := by
            unfold syncStep
            rw [show lookupA s.offlineContent t = some c from hlt.trans hl0]
            simp [hav, hcu.trans hdue0]
          have hdue : syncDue s0 env.now t = false := by
            simp [syncDue, hdue0]
          rw [he, hdue]
          simp only [Bool.false_eq_true, if_false]
          exact ih s tr hpref (fun u hu => hlk u (by simp [hu])) hnd'
        | true =>
          have he : syncStep env (s, tr) t =
              (updateCachedContent s env t, tr ++ [t]) := by
            unfold syncStep
            rw [show lookupA s.offlineContent t = some c from hlt.trans hl0]
            simp [hav, hcu.trans hdue0]
          have hdue : syncDue s0 env.now t = true := by
            simp [syncDue, isContentAvailableOffline, hl0, hav, hdue0]
          rw [he, hdue]
          simp only [if_true]
          obtain ⟨hpref', _, _, hlook', _⟩ := updateCachedContent_facts s env t
          have hrec := ih (updateCachedContent s env t) (tr ++ [t])
            (hpref'.trans hpref)
            (fun u hu => (hlook' u (fun huv => hnt (huv ▸ hu))).trans
              (hlk u (by simp [hu])))
            hnd'
          rw [hrec]
          simp

/-- The success path of `removeCachedContent` preserves the invariant. -/
theorem removeSuccState_invariant (s : ManagerState) (ty : String)
    (hinv : registryDbInvariant s) : registryDbInvariant (removeSuccState s ty) := by
  intro t c hlt hav
  simp only [removeSuccState] at hlt ⊢
  rw [lookupA_updateA] at hlt
  by_cases hty : t = ty
  · subst hty
    rw [if_pos rfl] at hlt
    obtain ⟨c0, _, hc0⟩ := Option.map_eq_some'.mp hlt
    rw [← hc0] at hav
    cases hav
  · rw [if_neg hty] at hlt
    have := hinv t c hlt hav
    simpa [hty] using this

/-- The success path of `clearAllCachedContent` leaves no available
entry, so the invariant holds trivially. -/
theorem clearSuccState_invariant (s : ManagerState) :
    registryDbInvariant (clearSuccState s) := by
  intro t c hlt hav
  simp only [clearSuccState] at hlt
  rw [lookupA_mapSnd s.offlineContent t
    (fun c => { c with size := 0, isAvailable := false })] at hlt
  obtain ⟨c0, _, hc0⟩ := Option.map_eq_some'.mp hlt
  rw [← hc0] at hav
  cases hav

/-- Outcome of `initializeManager` on a registry with the standard (or
empty) key set: the final state satisfies the registry/database
invariant; exactly one reset happens iff the first hydration attempt
throws; a second hydration attempt happens iff the first threw and the
reset succeeded; and when every attempt made threw, the registry is the
default all-unavailable one. -/
theorem initializeManager_facts (s : ManagerState) (env : InitEnv)
    (hkeys : s.offlineContent = [] ∨ s.offlineContent.map (·.1) = contentTypeKeys) :
    registryDbInvariant (initializeManager s env).state ∧
    (initializeManager s env).resets = (if env.hyd1.fatal = true then 1 else 0) ∧
    (initializeManager s env).attempts =
      (if env.hyd1.fatal && env.resetOk then 2 else 1) ∧
    (env.hyd1.fatal = true → env.resetOk = true → env.hyd2.fatal = true →
      (initializeManager s env).state.offlineContent = defaultRegistry env.now) ∧
    (env.hyd1.fatal = true → env.resetOk = false →
      (initializeManager s env).state.offlineContent = defaultRegistry env.now) := by
  have hkeys2 : (loadPreferences { s with swRegistered := env.swRegOk }).offlineContent
      = s.offlineContent :=
    (loadPreferences_frame { s with swRegistered := env.swRegOk }).1
  obtain ⟨hthrew1, _, _, hkeys1, hinv1, hdef1⟩ :=
    initializeOfflineContent_facts (loadPreferences { s with swRegistered := env.swRegOk })
      env.hyd1 env.now (by rw [hkeys2]; exact hkeys)
  cases hf1 : env.hyd1.fatal with
  | false =>
    have heq : initializeManager s env =
        ⟨(initializeOfflineContent
            (loadPreferences { s with swRegistered := env.swRegOk })
            env.hyd1 env.now).1, 0, 1⟩ := by
      simp only [initializeManager]
      rw [hthrew1, hf1]
      rfl
    rw [heq]
    exact ⟨hinv1, by simp [hf1], by simp [hf1],
      fun h _ _ => absurd h (by simp [hf1]),
      fun h _ => absurd h (by simp [hf1])⟩
  | true =>
    cases hro : env.resetOk with
    | false =>
      have heq : initializeManager s env =
          ⟨(initializeOfflineContent
              (loadPreferences { s with swRegistered := env.swRegOk })
              env.hyd1 env.now).1, 1, 1⟩ := by
        simp only [initializeManager]
        rw [hthrew1, hf1]
        simp [resetIndexedDB, hro]
      rw [heq]
      exact ⟨hinv1, by simp [hf1], by simp [hf1, hro],
        fun _ hrr _ => absurd hrr (by simp [hro]),
        fun _ _ => hdef1 hf1⟩
    | true =>
      obtain ⟨hthrew2, _, _, _, hinv2, hdef2⟩ :=
        initializeOfflineContent_facts
          { (initializeOfflineContent
              (loadPreferences { s with swRegistered := env.swRegOk })
              env.hyd1 env.now).1 with db := fun _ => none }
          env.hyd2 env.now (Or.inr hkeys1)
      have heq : initializeManager s env =
          ⟨(initializeOfflineContent
              { (initializeOfflineContent
                  (loadPreferences { s with swRegistered := env.swRegOk })
                  env.hyd1 env.now).1 with db := fun _ => none }
              env.hyd2 env.now).1, 1, 2⟩ := by
        simp only [initializeManager]
        rw [hthrew1, hf1]
        simp [resetIndexedDB, hro]
      rw [heq]
      exact ⟨hinv2, by simp [hf1], by simp [hf1, hro],
        fun _ _ hf2 => hdef2 hf2,
        fun _ hrr => absurd hrr (by simp [hro])⟩

end OperationLemmas

/-- C1, counterexample: on a manager whose worker-side cache holds a
`news` entry, a `getCachedContent` call whose IndexedDB read throws
resolves `null` even though the worker-bridge fallback would have
returned the cached value — refuting the claim that a thrown IndexedDB
error still results in the fallback being consulted. -/
theorem c1_counterexample :
    getCachedContent c1State ⟨false⟩ "news" = .ok Json.null ∧
    getFromSWCache c1State "news" = Json.str "cached" ∧
    Json.null ≠ Json.str "cached" :=
  ⟨rfl, rfl, fun h => Json.noConfusion h⟩

/-- C1, amended: `getCachedContent` queries IndexedDB first; when that
read succeeds with a truthy value it returns it; when it succeeds with
nothing (a missing record or a falsy stored value) it falls back to the
service-worker cache; when the read throws, the error is caught and the
call resolves `null` directly without consulting the fallback — in
every case the call resolves rather than rejecting. -/
theorem c1_retrieve_two_tier (s : ManagerState) (env : RetrieveEnv) (ty : String) :
    (env.getOk = true → (dbGetData s ty).truthy = true →
      getCachedContent s env ty = .ok (dbGetData s ty)) ∧
    (env.getOk = true → (dbGetData s ty).truthy = false →
      getCachedContent s env ty = .ok (getFromSWCache s ty)) ∧
    (env.getOk = false → getCachedContent s env ty = .ok Json.null) := by
  refine ⟨?_, ?_, ?_⟩
  · intro hok htr
    simp [getCachedContent, getCachedContentBody, tryCatch, hok, htr]
  · intro hok htr
    simp [getCachedContent, getCachedContentBody, tryCatch, hok, htr]
  · intro hok
    simp [getCachedContent, getCachedContentBody, tryCatch, hok]

/-- C1, witness: on the worker-cache fixture, a successful-but-empty
database read makes `getCachedContent` resolve the worker-bridge
fallback value. -/
theorem c1_witness :
    getCachedContent c1State ⟨true⟩ "news" = .ok (getFromSWCache c1State "news") :=
  (c1_retrieve_two_tier c1State ⟨true⟩ "news").2.1 rfl rfl

/-- C2: with offline mode enabled, a known registry type and a usable
storage estimate reporting usage `usage`, `cacheContent` refuses with
`false` and leaves the state untouched whenever
`usage + sizeOf(data) > maxStorageSize * 1024 * 1024`, and with the
projection within bounds and a committing put it writes the payload
record and resolves `true`; with the estimate facility unavailable the
guard permits the write (fail-open). -/
theorem c2_quota_guard (s : ManagerState) (env : CacheEnv) (ty : String) (data : Json)
    (usage quota : Nat)
    (hmode : s.preferences.enableOfflineMode = true)
    (hknown : (lookupA s.offlineContent ty).isSome = true)
    (hest : env.est = .ok usage quota) :
    (usage + data.jsonLen > s.preferences.maxStorageSize * 1024 * 1024 →
      cacheContent s env ty data = .ok (s, false)) ∧
    (usage + data.jsonLen ≤ s.preferences.maxStorageSize * 1024 * 1024 →
      env.putOk = true →
      ∃ content, lookupA s.offlineContent ty = some content ∧
        cacheContent s env ty data = .ok (cacheSuccState s env ty data content, true) ∧
        (cacheSuccState s env ty data content).db ty = some ⟨ty, data, env.now⟩) ∧
    (∀ d : Json, checkStorageQuota s.preferences .unavailable d = true) := by
  obtain ⟨content, hlk⟩ := Option.isSome_iff_exists.mp hknown
  refine ⟨?_, ?_, fun d => rfl⟩
  · intro hover
    have hq : checkStorageQuota s.preferences env.est data = false := by
      rw [hest]
      simp only [checkStorageQuota, decide_eq_false_iff_not]
      omega
    simp [cacheContent, cacheContentBody, hmode, hlk, hq, tryCatch]
  · intro hle hput
    have hq : checkStorageQuota s.preferences env.est data = true := by
      rw [hest]
      simp only [checkStorageQuota, decide_eq_true_eq]
      exact hle
    refine ⟨content, hlk, ?_, ?_⟩
    · simp [cacheContent, cacheContentBody, hmode, hlk, hq, hput, tryCatch]
    · simp [cacheSuccState]

/-- C2, witness: on the ready fixture with the estimate already at the
50 MB cap, caching a small payload is refused with `false` and no state
change. -/
theorem c2_witness :
    cacheContent readyState ⟨.ok 52428800 0, true, 5⟩ "news" (Json.str "x") =
      .ok (readyState, false) :=
  (c2_quota_guard readyState ⟨.ok 52428800 0, true, 5⟩ "news" (Json.str "x")
    52428800 0 rfl rfl rfl).1 (by decide)

/-- C6, counterexample: `resetIndexedDB` is a public operation that
rejects when the underlying database deletion fails, refuting the claim
that no public operation ever rejects past the public API. -/
theorem c6_counterexample : resetIndexedDB readyState ⟨false⟩ = .error () := rfl

/-- C6, amended: every public operation except `resetIndexedDB` resolves
for every collaborator behavior — `cacheContent`, `getCachedContent`,
`removeCachedContent` and `clearAllCachedContent` always produce a value
(`initializeManager`, `syncOfflineData`, `updatePreferences` and
`getStorageUsage` are total functions of the model outright) — while
`resetIndexedDB` rejects exactly when the database deletion fails. -/
theorem c6_public_ops_resolve (s : ManagerState) (cenv : CacheEnv) (renv : RetrieveEnv)
    (rmenv : RemoveEnv) (clenv : ClearEnv) (ty : String) (data : Json) :
    (∃ v, cacheContent s cenv ty data = .ok v) ∧
    (∃ v, getCachedContent s renv ty = .ok v) ∧
    (∃ v, removeCachedContent s rmenv ty = .ok v) ∧
    (∃ v, clearAllCachedContent s clenv = .ok v) ∧
    (∀ e : ResetEnv, e.deleteDbOk = false → resetIndexedDB s e = .error ()) := by
  refine ⟨?_, tryCatch_ok _ _, tryCatch_ok _ _, tryCatch_ok _ _, ?_⟩
  · unfold cacheContent
    split
    · exact ⟨(s, false), rfl⟩
    · exact tryCatch_ok _ _
  · intro e he
    simp [resetIndexedDB, he]

/-- C6, witness: a failing delete on the no-worker fixture makes
`resetIndexedDB` reject. -/
theorem c6_witness : resetIndexedDB noWorkerState ⟨false⟩ = .error () :=
  (c6_public_ops_resolve noWorkerState ⟨.unavailable, true, 0⟩ ⟨true⟩ ⟨true⟩ ⟨true⟩
    "news" Json.null).2.2.2.2 ⟨false⟩ rfl

/-- A `cacheContent` call that resolved `true` with a truthy payload
makes a subsequent working database read return that payload and leaves
the type marked available. -/
theorem cacheContent_round_trip (s s' : ManagerState) (env : CacheEnv) (ty : String)
    (d : Json) (ht : d.truthy = true)
    (h : cacheContent s env ty d = .ok (s', true)) :
    getCachedContent s' ⟨true⟩ ty = .ok d ∧
    isContentAvailableOffline s' ty = true := by
  obtain ⟨content, hlk, hs'⟩ := cacheContent_ok_true s s' env ty d h
  subst hs'
  constructor
  · have hdb : dbGetData (cacheSuccState s env ty d content) ty = d := by
      simp [dbGetData, cacheSuccState, ht]
    simp [getCachedContent, getCachedContentBody, tryCatch, hdb, ht]
  · simp only [isContentAvailableOffline, cacheSuccState]
    rw [lookupA_updateA, if_pos rfl, hlk]
    rfl

/-- C7, counterexample: on a manager with no registered worker,
`cacheContent` of the JSON value `false` succeeds, yet `getCachedContent`
resolves `null` rather than a value deep-equal to the payload (the
IndexedDB read collapses falsy stored data to `null` and the fallback
has no worker to ask) — refuting the round trip for arbitrary
JSON-serializable payloads. -/
theorem c7_counterexample :
    resultBool (cacheContent noWorkerState ⟨.unavailable, true, 5⟩ "news"
        (Json.bool false)) = true ∧
    getCachedContent
      (resultState noWorkerState
        (cacheContent noWorkerState ⟨.unavailable, true, 5⟩ "news" (Json.bool false)))
      ⟨true⟩ "news" = .ok Json.null ∧
    Json.null ≠ Json.bool false :=
  ⟨rfl, rfl, fun h => Json.noConfusion h⟩

/-- C7, amended: for truthy payloads the claim holds — after successful
`cacheContent(T, A)` then `cacheContent(T, B)` with `B` truthy, a
working `getCachedContent(T)` is deep-equal to `B` and the type is
available, regardless of preceding cache calls; and a single successful
`cacheContent(T, data)` with truthy `data` round-trips to a value
deep-equal to `data`.  (Payloads whose JSON value is falsy — `null`,
`false`, `0`, `""` — are collapsed to `null` by the database read and
round-trip only through a registered worker's mirrored cache.) -/
theorem c7_overwrite_round_trip (s sA sB : ManagerState) (eA eB : CacheEnv)
    (ty : String) (A B : Json) (hBt : B.truthy = true)
    (h1 : cacheContent s eA ty A = .ok (sA, true))
    (h2 : cacheContent sA eB ty B = .ok (sB, true)) :
    (getCachedContent sB ⟨true⟩ ty = .ok B ∧
      isContentAvailableOffline sB ty = true) ∧
    (∀ (s0 s1 : ManagerState) (e : CacheEnv) (d : Json), d.truthy = true →
      cacheContent s0 e ty d = .ok (s1, true) →
      getCachedContent s1 ⟨true⟩ ty = .ok d) := by
  refine ⟨cacheContent_round_trip sA sB eB ty B hBt h2, ?_⟩
  intro s0 s1 e d hdt hc
  exact (cacheContent_round_trip s0 s1 e ty d hdt hc).1

/-- C7, witness: caching `"x"` over `"a"` for `news` on the ready
fixture retrieves `"x"` and leaves `news` available. -/
theorem c7_witness :
    getCachedContent
      (resultState
        (resultState readyState
          (cacheContent readyState ⟨.unavailable, true, 1⟩ "news" (Json.str "a")))
        (cacheContent
          (resultState readyState
            (cacheContent readyState ⟨.unavailable, true, 1⟩ "news" (Json.str "a")))
          ⟨.unavailable, true, 2⟩ "news" (Json.str "x")))
      ⟨true⟩ "news" = .ok (Json.str "x") :=
  ((c7_overwrite_round_trip readyState
    (resultState readyState
      (cacheContent readyState ⟨.unavailable, true, 1⟩ "news" (Json.str "a")))
    (resultState
      (resultState readyState
        (cacheContent readyState ⟨.unavailable, true, 1⟩ "news" (Json.str "a")))
      (cacheContent
        (resultState readyState
          (cacheContent readyState ⟨.unavailable, true, 1⟩ "news" (Json.str "a")))
        ⟨.unavailable, true, 2⟩ "news" (Json.str "x")))
    ⟨.unavailable, true, 1⟩ ⟨.unavailable, true, 2⟩ "news"
    (Json.str "a") (Json.str "x") rfl rfl rfl).1).1

/-- C8: a `cacheContent` call that resolves `true` leaves the type
marked available; a `removeCachedContent` call that resolves `true`
leaves the type unavailable and every subsequent `getCachedContent` for
it — whether the database read succeeds or throws — resolving `null`. -/
theorem c8_availability (s s' : ManagerState) (cenv : CacheEnv) (renv : RemoveEnv)
    (ty : String) (data : Json) :
    (cacheContent s cenv ty data = .ok (s', true) →
      isContentAvailableOffline s' ty = true) ∧
    (removeCachedContent s renv ty = .ok (s', true) →
      isContentAvailableOffline s' ty = false ∧
      ∀ g : RetrieveEnv, getCachedContent s' g ty = .ok Json.null) := by
  constructor
  · intro h
    obtain ⟨content, hlk, hs'⟩ := cacheContent_ok_true s s' cenv ty data h
    subst hs'
    simp only [isContentAvailableOffline, cacheSuccState]
    rw [lookupA_updateA, if_pos rfl, hlk]
    rfl
  · intro h
    cases hdel : renv.deleteOk with
    | false =>
      rw [removeCachedContent_of_fail s renv ty hdel] at h
      cases h
    | true =>
      rw [removeCachedContent_of_ok s renv ty hdel] at h
      injection h with h
      injection h with h1 _
      subst h1
      constructor
      · simp only [isContentAvailableOffline, removeSuccState]
        rw [lookupA_updateA, if_pos rfl]
        cases lookupA s.offlineContent ty <;> rfl
      · intro g
        cases hok : g.getOk with
        | false =>
          simp [getCachedContent, getCachedContentBody, tryCatch, hok]
        | true =>
          have hdb : dbGetData (removeSuccState s ty) ty = Json.null := by
            simp [dbGetData, removeSuccState]
          have hsw : getFromSWCache (removeSuccState s ty) ty = Json.null := by
            unfold getFromSWCache removeSuccState
            cases hreg : s.swRegistered <;> simp [hreg]
          simp [getCachedContent, getCachedContentBody, tryCatch, hok, hdb, hsw,
            Json.truthy]

/-- C3: the registry/database consistency invariant — an available type
has a stored payload — holds after `initializeManager` completes (from a
fresh or standard-keyed registry, both reset-and-retry paths included)
and is preserved by every resolving `cacheContent`,
`removeCachedContent`, `clearAllCachedContent` and `syncOfflineData`
call. -/
theorem c3_registry_db_invariant :
    (∀ s : ManagerState, registryDbInvariant s ↔
      ∀ ty : String, isContentAvailableOffline s ty = true → (s.db ty).isSome = true) ∧
    (∀ (s : ManagerState) (env : InitEnv),
      (s.offlineContent = [] ∨ s.offlineContent.map (·.1) = contentTypeKeys) →
      registryDbInvariant (initializeManager s env).state) ∧
    (∀ (s : ManagerState) (env : CacheEnv) (ty : String) (data : Json)
        (s' : ManagerState) (b : Bool), registryDbInvariant s →
      cacheContent s env ty data = .ok (s', b) → registryDbInvariant s') ∧
    (∀ (s : ManagerState) (env : RemoveEnv) (ty : String)
        (s' : ManagerState) (b : Bool), registryDbInvariant s →
      removeCachedContent s env ty = .ok (s', b) → registryDbInvariant s') ∧
    (∀ (s : ManagerState) (env : ClearEnv) (s' : ManagerState) (b : Bool),
      registryDbInvariant s →
      clearAllCachedContent s env = .ok (s', b) → registryDbInvariant s') ∧
    (∀ (s : ManagerState) (env : SyncEnv), registryDbInvariant s →
      registryDbInvariant (syncOfflineData s env).1) := by
  refine ⟨?_, ?_, ?_, ?_, ?_, ?_⟩
  · intro s
    constructor
    · intro hinv ty hav
      unfold isContentAvailableOffline at hav
      cases hlk : lookupA s.offlineContent ty with
      | none => rw [hlk] at hav; cases hav
      | some c =>
        rw [hlk] at hav
        exact hinv ty c hlk hav
    · intro h ty c hlk hav
      refine h ty ?_
      unfold isContentAvailableOffline
      rw [hlk]
      exact hav
  · intro s env hkeys
    exact (initializeManager_facts s env hkeys).1
  · intro s env ty data s' b hinv h
    exact cacheContent_preserves_invariant s s' env ty data b hinv h
  · intro s env ty s' b hinv h
    cases hdel : env.deleteOk with
    | false =>
      rw [removeCachedContent_of_fail s env ty hdel] at h
      injection h with h
      injection h with h1 _
      exact h1 ▸ hinv
    | true =>
      rw [removeCachedContent_of_ok s env ty hdel] at h
      injection h with h
      injection h with h1 _
      exact h1 ▸ removeSuccState_invariant s ty hinv
  · intro s env s' b hinv h
    cases hcl : env.clearOk with
    | false =>
      rw [clearAllCachedContent_of_fail s env hcl] at h
      injection h with h
      injection h with h1 _
      exact h1 ▸ hinv
    | true =>
      rw [clearAllCachedContent_of_ok s env hcl] at h
      injection h with h
      injection h with h1 _
      exact h1 ▸ clearSuccState_invariant s
  · intro s env hinv
    unfold syncOfflineData
    split
    · exact hinv
    · have hfold : ∀ (ks : List String) (acc : ManagerState × List String),
          registryDbInvariant acc.1 →
          registryDbInvariant ((ks.foldl (syncStep env) acc).1) := by
        intro ks
        induction ks with
        | nil => exact fun acc h => h
        | cons t ks ih =>
          intro acc hacc
          exact ih (syncStep env acc t) ((syncStep_facts env acc t).2.2.2.2 hacc)
      exact hfold _ (s, []) hinv

/-- C3, witness: the invariant holds after initializing a fresh
manager. -/
theorem c3_witness :
    registryDbInvariant
      (initializeManager freshState
        ⟨true, ⟨false, fun _ => true⟩, true, ⟨false, fun _ => true⟩, 3⟩).state :=
  c3_registry_db_invariant.2.1 freshState
    ⟨true, ⟨false, fun _ => true⟩, true, ⟨false, fun _ => true⟩, 3⟩ (Or.inl rfl)

/-- C4: `initializeManager` performs at most one destructive reset and
at most two hydration attempts; a first-attempt hydration throw triggers
exactly one reset, and (the reset succeeding) exactly one retry; when
the retry throws as well, the call still resolves with every registry
descriptor in its default all-unavailable state. -/
theorem c4_init_recovery (s : ManagerState) (env : InitEnv)
    (hreg : s.offlineContent = []) :
    ((initializeManager s env).resets ≤ 1) ∧
    ((initializeManager s env).attempts ≤ 2) ∧
    (env.hyd1.fatal = false → (initializeManager s env).resets = 0) ∧
    (env.hyd1.fatal = true → (initializeManager s env).resets = 1) ∧
    (env.hyd1.fatal = true → env.resetOk = true →
      (initializeManager s env).attempts = 2) ∧
    (env.hyd1.fatal = true → env.resetOk = true → env.hyd2.fatal = true →
      (initializeManager s env).state.offlineContent = defaultRegistry env.now ∧
      ∀ p ∈ defaultRegistry env.now, p.2.isAvailable = false) := by
  obtain ⟨_, hres, hatt, hdef, _⟩ := initializeManager_facts s env (Or.inl hreg)
  have hunavail : ∀ p ∈ defaultRegistry env.now, p.2.isAvailable = false := by
    intro p hp
    simp only [defaultRegistry, List.mem_cons, List.mem_singleton] at hp
    rcases hp with rfl | rfl | rfl | rfl | hp
    · rfl
    · rfl
    · rfl
    · rfl
    · cases hp
  refine ⟨?_, ?_, ?_, ?_, ?_, ?_⟩
  · rw [hres]
    split <;> omega
  · rw [hatt]
    split <;> omega
  · intro hf1
    rw [hres, if_neg (by simp [hf1])]
  · intro hf1
    rw [hres, if_pos hf1]
  · intro hf1 hro
    rw [hatt, if_pos (by simp [hf1, hro])]
  · intro hf1 hro hf2
    exact ⟨hdef hf1 hro hf2, hunavail⟩

/-- C4, witness: a fresh manager whose two hydration attempts both throw
resolves with one reset, two attempts, and the default all-unavailable
registry. -/
theorem c4_witness :
    (initializeManager freshState
      ⟨true, ⟨true, fun _ => true⟩, true, ⟨true, fun _ => true⟩, 7⟩).resets = 1 ∧
    (initializeManager freshState
      ⟨true, ⟨true, fun _ => true⟩, true, ⟨true, fun _ => true⟩, 7⟩).attempts = 2 ∧
    (initializeManager freshState
      ⟨true, ⟨true, fun _ => true⟩, true, ⟨true, fun _ => true⟩, 7⟩).state.offlineContent
      = defaultRegistry 7 :=
  ⟨(c4_init_recovery freshState _ rfl).2.2.2.1 rfl,
   (c4_init_recovery freshState _ rfl).2.2.2.2.1 rfl rfl,
   ((c4_init_recovery freshState _ rfl).2.2.2.2.2 rfl rfl rfl).1⟩

/-- C5: `syncOfflineData` is a no-op when offline or when `autoSync` is
off; otherwise the external data source is invoked for exactly the
registry types currently marked available whose age exceeds
`syncInterval` minutes — the fetch trace is independent of individual
fetch outcomes, so one type's fetch failure does not abort the refresh
of the remaining types. -/
theorem c5_sync_guard (s : ManagerState) (env : SyncEnv)
    (hnd : (s.offlineContent.map (·.1)).Nodup) :
    (s.isOnline = false ∨ s.preferences.autoSync = false →
      syncOfflineData s env = (s, [])) ∧
    (s.isOnline = true → s.preferences.autoSync = true →
      (syncOfflineData s env).2 =
        (s.offlineContent.map (·.1)).filter (syncDue s env.now)) := by
  constructor
  · intro h
    unfold syncOfflineData
    rcases h with h | h <;> simp [h]
  · intro hon hauto
    unfold syncOfflineData
    rw [if_neg (by simp [hon, hauto])]
    have := syncFold_trace env (s.offlineContent.map (·.1)) s s [] rfl
      (fun _ _ => rfl) hnd
    rw [this]
    rfl

/-- C5, witness: on a manager with `news` freshly cached at time 0, a
sync 31 minutes later fetches exactly `news`; a sync while the network
is offline is a no-op. -/
theorem c5_witness :
    (syncOfflineData syncedState
      ⟨1860001, fun _ => .error (), fun _ => ⟨.unavailable, true, 1860001⟩⟩).2 =
      (syncedState.offlineContent.map (·.1)).filter (syncDue syncedState 1860001) ∧
    syncOfflineData { syncedState with isOnline := false }
      ⟨0, fun _ => .error (), fun _ => ⟨.unavailable, true, 0⟩⟩ =
      ({ syncedState with isOnline := false }, []) :=
  ⟨(c5_sync_guard syncedState
      ⟨1860001, fun _ => .error (), fun _ => ⟨.unavailable, true, 1860001⟩⟩
      (by decide)).2 rfl rfl,
   (c5_sync_guard { syncedState with isOnline := false }
      ⟨0, fun _ => .error (), fun _ => ⟨.unavailable, true, 0⟩⟩
      (by decide)).1 (Or.inl rfl)⟩

/-- C8, witness: after a successful cache of `news` on the ready
fixture, the type is available. -/
theorem c8_witness :
    isContentAvailableOffline
      (resultState readyState
        (cacheContent readyState ⟨.unavailable, true, 5⟩ "news" (Json.str "x")))
      "news" = true :=
  (c8_availability readyState
    (resultState readyState
      (cacheContent readyState ⟨.unavailable, true, 5⟩ "news" (Json.str "x")))
    ⟨.unavailable, true, 5⟩ ⟨true⟩ "news" (Json.str "x")).1 rfl

/-- C9: `updatePreferences` shallow-merges the patch into the current
preferences — every field absent from the patch is unchanged, a present
field takes the patch's value — and persists the merged object, so a
subsequent load from the written store yields it; the load itself falls
back to the current (default) preferences, without throwing, when the
stored blob is absent or unparsable. -/
theorem c9_prefs_merge (s : ManagerState) (q : PrefsPatch) (env : SaveEnv) :
    ((updatePreferences s env q).preferences = mergePrefs s.preferences q) ∧
    (env.setOk = true → ∀ s2 : ManagerState,
      s2.prefStore = (updatePreferences s env q).prefStore →
      (loadPreferences s2).preferences = mergePrefs s.preferences q) ∧
    (∀ s3 : ManagerState, s3.prefStore = none ∨ s3.prefStore = some none →
      loadPreferences s3 = s3) ∧
    (q.enableOfflineMode = none →
      (mergePrefs s.preferences q).enableOfflineMode = s.preferences.enableOfflineMode) ∧
    (q.autoSync = none →
      (mergePrefs s.preferences q).autoSync = s.preferences.autoSync) ∧
    (q.syncInterval = none →
      (mergePrefs s.preferences q).syncInterval = s.preferences.syncInterval) ∧
    (q.maxStorageSize = none →
      (mergePrefs s.preferences q).maxStorageSize = s.preferences.maxStorageSize) ∧
    (q.contentTypes = none →
      (mergePrefs s.preferences q).contentTypes = s.preferences.contentTypes) ∧
    (∀ b, q.autoSync = some b → (mergePrefs s.preferences q).autoSync = b) := by
  refine ⟨?_, ?_, ?_, ?_, ?_, ?_, ?_, ?_, ?_⟩
  · unfold updatePreferences savePreferences
    split <;> rfl
  · intro hok s2 hs2
    have hstore : (updatePreferences s env q).prefStore =
        some (some (fullPatch (mergePrefs s.preferences q))) := by
      unfold updatePreferences savePreferences
      rw [hok]
      rfl
    rw [hstore] at hs2
    unfold loadPreferences
    rw [hs2]
    rfl
  · intro s3 h
    unfold loadPreferences
    rcases h with h | h <;> rw [h]
  · intro h
    simp [mergePrefs, h]
  · intro h
    simp [mergePrefs, h]
  · intro h
    simp [mergePrefs, h]
  · intro h
    simp [mergePrefs, h]
  · intro h
    simp [mergePrefs, h]
  · intro b h
    simp [mergePrefs, h]

/-- C9, witness: updating only `autoSync` on the ready fixture keeps
`enableOfflineMode`, and loading from the written store yields the
merged preferences. -/
theorem c9_witness :
    (mergePrefs readyState.preferences
      { autoSync := some false }).enableOfflineMode =
        readyState.preferences.enableOfflineMode ∧
    (loadPreferences { freshState with prefStore :=
        (updatePreferences readyState ⟨true⟩ { autoSync := some false }).prefStore
      }).preferences =
      mergePrefs readyState.preferences { autoSync := some false } :=
  ⟨(c9_prefs_merge readyState { autoSync := some false } ⟨true⟩).2.2.2.1 rfl,
   (c9_prefs_merge readyState { autoSync := some false } ⟨true⟩).2.1 rfl
     { freshState with prefStore :=
        (updatePreferences readyState ⟨true⟩ { autoSync := some false }).prefStore }
     rfl⟩

/-- C10: for a type not in the registry, `cacheContent` resolves `false`
with the state — database, worker cache and registry — fully untouched,
while `removeCachedContent` with a committing (vacuous) delete resolves
`true` leaving every registry descriptor unchanged; moreover the
registry's key set equals the four standard keys after initialization
from a fresh state and is preserved by every public operation. -/
theorem c10_unknown_type (s : ManagerState) (ty : String) (data : Json)
    (cenv : CacheEnv) (renv : RemoveEnv)
    (hunknown : lookupA s.offlineContent ty = none) :
    (cacheContent s cenv ty data = .ok (s, false)) ∧
    (renv.deleteOk = true →
      removeCachedContent s renv ty = .ok (removeSuccState s ty, true) ∧
      (removeSuccState s ty).offlineContent = s.offlineContent) ∧
    (∀ (ty2 : String) (d2 : Json) (e2 : CacheEnv) (s2 : ManagerState) (b2 : Bool),
      cacheContent s e2 ty2 d2 = .ok (s2, b2) →
      s2.offlineContent.map (·.1) = s.offlineContent.map (·.1)) ∧
    (∀ (ty2 : String) (e2 : RemoveEnv) (s2 : ManagerState) (b2 : Bool),
      removeCachedContent s e2 ty2 = .ok (s2, b2) →
      s2.offlineContent.map (·.1) = s.offlineContent.map (·.1)) ∧
    (∀ (e2 : ClearEnv) (s2 : ManagerState) (b2 : Bool),
      clearAllCachedContent s e2 = .ok (s2, b2) →
      s2.offlineContent.map (·.1) = s.offlineContent.map (·.1)) ∧
    (∀ e2 : SyncEnv,
      (syncOfflineData s e2).1.offlineContent.map (·.1) =
        s.offlineContent.map (·.1)) ∧
    (∀ (e2 : SaveEnv) (q : PrefsPatch),
      (updatePreferences s e2 q).offlineContent = s.offlineContent) ∧
    (∀ (e2 : ResetEnv) (s2 : ManagerState), resetIndexedDB s e2 = .ok s2 →
      s2.offlineContent = s.offlineContent) ∧
    (∀ (s0 : ManagerState) (e0 : InitEnv), s0.offlineContent = [] →
      (initializeManager s0 e0).state.offlineContent.map (·.1) = contentTypeKeys) := by
  refine ⟨?_, ?_, ?_, ?_, ?_, ?_, ?_, ?_, ?_⟩
  · rcases cacheContent_cases s cenv ty data with hc | ⟨content, hlk, _, _, _, _⟩
    · exact hc
    · rw [hunknown] at hlk
      cases hlk
  · intro hdel
    refine ⟨removeCachedContent_of_ok s renv ty hdel, ?_⟩
    simp only [removeSuccState]
    exact updateA_of_none s.offlineContent ty _ hunknown
  · intro ty2 d2 e2 s2 b2 h
    rcases cacheContent_cases s e2 ty2 d2 with hc | ⟨content, hlk, _, _, _, hc⟩ <;>
      rw [hc] at h <;> injection h with h <;> injection h with h1 _ <;> subst h1
    · rfl
    · exact (cacheSuccState_frame s e2 ty2 d2 content).2.2.1
  · intro ty2 e2 s2 b2 h
    cases hdel : e2.deleteOk with
    | false =>
      rw [removeCachedContent_of_fail s e2 ty2 hdel] at h
      injection h with h
      injection h with h1 _
      subst h1
      rfl
    | true =>
      rw [removeCachedContent_of_ok s e2 ty2 hdel] at h
      injection h with h
      injection h with h1 _
      subst h1
      simp only [removeSuccState]
      exact keys_updateA s.offlineContent ty2
        (fun c => { c with size := 0, isAvailable := false })
  · intro e2 s2 b2 h
    cases hcl : e2.clearOk with
    | false =>
      rw [clearAllCachedContent_of_fail s e2 hcl] at h
      injection h with h
      injection h with h1 _
      subst h1
      rfl
    | true =>
      rw [clearAllCachedContent_of_ok s e2 hcl] at h
      injection h with h
      injection h with h1 _
      subst h1
      simp only [clearSuccState]
      exact keys_mapSnd s.offlineContent
        (fun c => { c with size := 0, isAvailable := false })
  · intro e2
    unfold syncOfflineData
    split
    · rfl
    · have hfold : ∀ (ks : List String) (acc : ManagerState × List String),
          ((ks.foldl (syncStep e2) acc).1).offlineContent.map (·.1) =
            acc.1.offlineContent.map (·.1) := by
        intro ks
        induction ks with
        | nil => exact fun acc => rfl
        | cons t ks ih =>
          intro acc
          exact (ih (syncStep e2 acc t)).trans (syncStep_facts e2 acc t).2.2.1
      exact hfold _ (s, [])
  · intro e2 q
    unfold updatePreferences savePreferences
    split <;> rfl
  · intro e2 s2 h
    unfold resetIndexedDB at h
    split at h
    · injection h with h
      subst h
      rfl
    · cases h
  · intro s0 e0 h0
    have hkeys2 : (loadPreferences { s0 with swRegistered := e0.swRegOk }).offlineContent
        = s0.offlineContent :=
      (loadPreferences_frame { s0 with swRegistered := e0.swRegOk }).1
    obtain ⟨hthrew1, _, _, hkeys1, _, _⟩ :=
      initializeOfflineContent_facts
        (loadPreferences { s0 with swRegistered := e0.swRegOk })
        e0.hyd1 e0.now (by rw [hkeys2]; exact Or.inl h0)
    obtain ⟨hthrew2, _, _, hkeys2', _, _⟩ :=
      initializeOfflineContent_facts
        { (initializeOfflineContent
            (loadPreferences { s0 with swRegistered := e0.swRegOk })
            e0.hyd1 e0.now).1 with db := fun _ => none }
        e0.hyd2 e0.now (Or.inr hkeys1)
    cases hf1 : e0.hyd1.fatal with
    | false =>
      have heq : initializeManager s0 e0 =
          ⟨(initializeOfflineContent
              (loadPreferences { s0 with swRegistered := e0.swRegOk })
              e0.hyd1 e0.now).1, 0, 1⟩ := by
        simp only [initializeManager]
        rw [hthrew1, hf1]
        rfl
      rw [heq]
      exact hkeys1
    | true =>
      cases hro : e0.resetOk with
      | false =>
        have heq : initializeManager s0 e0 =
            ⟨(initializeOfflineContent
                (loadPreferences { s0 with swRegistered := e0.swRegOk })
                e0.hyd1 e0.now).1, 1, 1⟩ := by
          simp only [initializeManager]
          rw [hthrew1, hf1]
          simp [resetIndexedDB, hro]
        rw [heq]
        exact hkeys1
      | true =>
        have heq : initializeManager s0 e0 =
            ⟨(initializeOfflineContent
                { (initializeOfflineContent
                    (loadPreferences { s0 with swRegistered := e0.swRegOk })
                    e0.hyd1 e0.now).1 with db := fun _ => none }
                e0.hyd2 e0.now).1, 1, 2⟩ := by
          simp only [initializeManager]
          rw [hthrew1, hf1]
          simp [resetIndexedDB, hro]
        rw [heq]
        exact hkeys2'

/-- C10, witness: caching the unknown type `races` on the ready fixture
resolves `false` with the state untouched, while removing it resolves
`true` with the registry unchanged. -/
theorem c10_witness :
    cacheContent readyState ⟨.unavailable, true, 5⟩ "races" (Json.str "x") =
      .ok (readyState, false) ∧
    removeCachedContent readyState ⟨true⟩ "races" =
      .ok (removeSuccState readyState "races", true) :=
  ⟨(c10_unknown_type readyState "races" (Json.str "x") ⟨.unavailable, true, 5⟩
      ⟨true⟩ rfl).1,
   ((c10_unknown_type readyState "races" (Json.str "x") ⟨.unavailable, true, 5⟩
      ⟨true⟩ rfl).2.1 rfl).1⟩

end AbcRacing
